import Mathlib

/-!
Shallow embedding of the Bitboard note-taking API (app/models.py, app/views.py,
app/handlers.py, app/__init__.py) and proofs about its authorization,
error-handling and partial-update behaviour.

Stores are lists of rows in insertion order; peewee `Model.get(cond)` is the
first matching row, raising `DoesNotExist` when there is none, which the
application error handler maps to `DoesNotExistError`. Timestamps are naturals
(`datetime.now()` is passed in explicitly as `now`). Request handlers are
functions from a store, the authenticated principal and the request parameters
to `Except ApiError`; optional JSON body parameters are `Option` values.
-/

namespace Bitboard

/-- Failure kinds raised by the application (east.exceptions). -/
inductive ApiError where
  | DoesNotExistError
  | AuthorizationError
  | AuthenticationError
  | IntegrityViolationError
  deriving Repr, DecidableEq

abbrev UserId := Nat
abbrev CategoryId := Nat
abbrev NoteId := Nat
abbrev Timestamp := Nat

/-- User row (app/models.py): fullname, unique email, password_hash. -/
structure User where
  id : UserId
  fullname : String
  email : String
  password_hash : String
  deriving Repr, DecidableEq

/-- Category row (app/models.py): globally unique name, optional parent
category, owning user. -/
structure Category where
  id : CategoryId
  name : String
  _parent : Option CategoryId
  owner : UserId
  deriving Repr, DecidableEq

/-- Note row (app/models.py): title, content, author, category, timestamps. -/
structure Note where
  id : NoteId
  title : String
  content : String
  _author : UserId
  _category : CategoryId
  date_created : Timestamp
  date_modified : Timestamp
  deriving Repr, DecidableEq

/-- The relational store: rows in insertion order. -/
structure Store where
  users : List User
  categories : List Category
  notes : List Note
  deriving Repr, DecidableEq

/-- Decidable equality of `Except` results, so that request outcomes can be
evaluated on concrete inputs. -/
instance {ε α : Type} [DecidableEq ε] [DecidableEq α] :
    DecidableEq (Except ε α) := fun a b =>
  match a, b with
  | .error e, .error f =>
      if h : e = f then isTrue (congrArg Except.error h)
      else isFalse (fun hh => h (Except.error.inj hh))
  | .ok x, .ok y =>
      if h : x = y then isTrue (congrArg Except.ok h)
      else isFalse (fun hh => h (Except.ok.inj hh))
  | .error _, .ok _ => isFalse (fun hh => Except.noConfusion hh)
  | .ok _, .error _ => isFalse (fun hh => Except.noConfusion hh)

/-- Modelled from the spec: `make_password_hash` (east.security, absent from
src/) is an external password-hashing library call; modelled as an injective
tagging of the password. -/
def make_password_hash (password : String) : String :=
  "pbkdf2$" ++ password

/-- Modelled from the spec: `check_password_hash` (werkzeug.security, absent
from src/) verifies a password against a stored hash. -/
def check_password_hash (h : String) (password : String) : Bool :=
  h == make_password_hash password

/-- First category row matching `Category.name == name`. -/
def Store.categoryByName (s : Store) (name : String) : Option Category :=
  s.categories.find? (fun c => c.name == name)

/-- First note row matching `Note.id == nid`. -/
def Store.noteById (s : Store) (nid : NoteId) : Option Note :=
  s.notes.find? (fun n => n.id == nid)

/-- First user row matching `User.email == email`. -/
def Store.userByEmail (s : Store) (email : String) : Option User :=
  s.users.find? (fun u => u.email == email)

/-- First user row matching `User.id == uid`. -/
def Store.userById (s : Store) (uid : UserId) : Option User :=
  s.users.find? (fun u => u.id == uid)

/-- `Category.get(Category.name == name)`: peewee `DoesNotExist` on a miss is
mapped to `DoesNotExistError` by `handle_peewee_doesnotexist`. -/
def Category.getByName (s : Store) (name : String) : Except ApiError Category :=
  match s.categoryByName name with
  | some c => .ok c
  | none => .error .DoesNotExistError

/-- `Note.get(Note.id == nid)`, with the same `DoesNotExist` mapping. -/
def Note.getById (s : Store) (nid : NoteId) : Except ApiError Note :=
  match s.noteById nid with
  | some n => .ok n
  | none => .error .DoesNotExistError

/-- `User.authenticate` (app/models.py): look the user up by email, raising
`DoesNotExistError` on a miss; reject a wrong password with
`AuthenticationError`. -/
def User.authenticate (s : Store) (email password : String) :
    Except ApiError User :=
  match s.userByEmail email with
  | none => .error .DoesNotExistError
  | some user =>
      if ¬ check_password_hash user.password_hash password then
        .error .AuthenticationError
      else
        .ok user

/-- Modelled from the spec: a JWT access token (east.security, absent from
src/) whose subject claim carries the user id. -/
structure Token where
  user_id : UserId
  deriving Repr, DecidableEq

/-- Modelled from the spec: `generate_access_token` (east.security, absent
from src/) embeds the user id as the subject claim of the returned token. -/
def generate_access_token (uid : UserId) : Token :=
  ⟨uid⟩

/-- JWT subject resolution registered in app/__init__.py:
`User.get(User.id == payload.user_id)`. -/
def jwt_resolve (s : Store) (t : Token) : Except ApiError User :=
  match s.userById t.user_id with
  | some u => .ok u
  | none => .error .DoesNotExistError

/-- `obtain_access_token` (app/views.py, POST /auth). -/
def obtain_access_token (s : Store) (email password : String) :
    Except ApiError Token :=
  (User.authenticate s email password).map (fun u => generate_access_token u.id)

/-- Auto-increment primary key for a new category row. -/
def freshCategoryId (s : Store) : CategoryId :=
  (s.categories.foldl (fun m c => max m c.id) 0) + 1

/-- Auto-increment primary key for a new note row. -/
def freshNoteId (s : Store) : NoteId :=
  (s.notes.foldl (fun m n => max m n.id) 0) + 1

/-- `edit_profile` (app/views.py, PUT /users/self): `None` values are filtered
out of the update dict, a supplied password is re-hashed. Modelled from the
spec: the unique constraint on `email` surfaces as `IntegrityViolationError`
(the mapping lives in the east framework, absent from src/). -/
def edit_profile (s : Store) (principal : UserId)
    (fullname email password : Option String) : Except ApiError (Store × User) :=
  match s.userById principal with
  | none => .error .DoesNotExistError
  | some user =>
      let newEmail := email.getD user.email
      if newEmail != user.email && s.users.any (fun u => u.email == newEmail) then
        .error .IntegrityViolationError
      else
        let updated : User :=
          { user with
              fullname := fullname.getD user.fullname,
              email := newEmail,
              password_hash := match password with
                | some p => make_password_hash p
                | none => user.password_hash }
        .ok ({ s with users := s.users.map (fun u => if u.id = principal then updated else u) },
             updated)

/-- `list_all_notes` (app/views.py, GET /notes):
`Note.select().where(Note._author == active_user()).offset(start).limit(limit)`. -/
def list_all_notes (s : Store) (principal : UserId) (start limit : Nat) :
    List Note :=
  ((s.notes.filter (fun n => n._author == principal)).drop start).take limit

/-- Default for the `start` query parameter of `list_all_notes` and
`list_category_notes`. -/
def START_DEFAULT : Nat := 0

/-- Default for the `limit` query parameter of `list_all_notes` and
`list_category_notes`. -/
def LIMIT_DEFAULT : Nat := 20

/-- Resolution of an optional category-name parameter, as in `add_category`,
`edit_category` and `edit_note` (app/views.py):
`Category.get(Category.name == cname)` when supplied, `None` otherwise. -/
def resolveCategoryArg (s : Store) (arg : Option String) :
    Except ApiError (Option CategoryId) :=
  match arg with
  | some cname =>
      match Category.getByName s cname with
      | .ok c => .ok (some c.id)
      | .error e => .error e
  | none => .ok none

/-- `add_category` (app/views.py, POST /categories): the optional parent is
resolved by name first; `Category.create` then enforces the global
`unique=True` constraint on `name`. Modelled from the spec: the store maps
the uniqueness violation to `IntegrityViolationError` (east framework, absent
from src/). -/
def add_category (s : Store) (principal : UserId) (name : String)
    (parent : Option String) : Except ApiError (Store × Category) :=
  match resolveCategoryArg s parent with
  | .error e => .error e
  | .ok parentId =>
      if s.categories.any (fun c => c.name == name) then
        .error .IntegrityViolationError
      else
        let c : Category := ⟨freshCategoryId s, name, parentId, principal⟩
        .ok ({ s with categories := s.categories ++ [c] }, c)

/-- `get_category` (app/views.py, GET /categories/name): fetch by name, then
reject a foreign owner with `AuthorizationError`. -/
def get_category (s : Store) (principal : UserId) (category_name : String) :
    Except ApiError Category :=
  match Category.getByName s category_name with
  | .error e => .error e
  | .ok category =>
      if category.owner ≠ principal then
        .error .AuthorizationError
      else
        .ok category

/-- `edit_category` (app/views.py, PUT /categories/name): fetch, ownership
check, resolve the optional new parent by name, then update with `None`
values filtered out. Modelled from the spec: the unique constraint on `name`
surfaces as `IntegrityViolationError` on a colliding rename. -/
def edit_category (s : Store) (principal : UserId) (category_name : String)
    (name parent : Option String) : Except ApiError (Store × Category) :=
  match Category.getByName s category_name with
  | .error e => .error e
  | .ok category =>
      if category.owner ≠ principal then
        .error .AuthorizationError
      else
        match resolveCategoryArg s parent with
        | .error e => .error e
        | .ok newParent =>
            let newName := name.getD category.name
            if newName != category.name &&
                s.categories.any (fun c => c.name == newName) then
              .error .IntegrityViolationError
            else
              let updated : Category :=
                { category with
                    name := newName,
                    _parent := match newParent with
                      | some pid => some pid
                      | none => category._parent }
              let newCategories := s.categories.map
                (fun c => if c.id = category.id then updated else c)
              .ok ({ s with categories := newCategories }, updated)

/-- `delete_category` (app/views.py, DELETE /categories/name): fetch,
ownership check, delete; notes cascade (`on_delete` CASCADE). -/
def delete_category (s : Store) (principal : UserId) (category_name : String) :
    Except ApiError Store :=
  match Category.getByName s category_name with
  | .error e => .error e
  | .ok category =>
      if category.owner ≠ principal then
        .error .AuthorizationError
      else
        let newCategories := s.categories.filter (fun c => c.id != category.id)
        let newNotes := s.notes.filter (fun n => n._category != category.id)
        .ok { s with categories := newCategories, notes := newNotes }

/-- `list_category_notes` (app/views.py, GET /categories/name/notes): fetch
the category, ownership check, then return the notes filtered by author and
category. The `start` and `limit` query parameters are accepted but unused in
the query. -/
def list_category_notes (s : Store) (principal : UserId) (category_name : String)
    (start limit : Nat) : Except ApiError (List Note) :=
  match Category.getByName s category_name with
  | .error e => .error e
  | .ok category =>
      if category.owner ≠ principal then
        .error .AuthorizationError
      else
        .ok (s.notes.filter
          (fun n => n._author == principal && n._category == category.id))

/-- `add_note` (app/views.py, POST /categories/name/notes): resolve the
category by name and create the note; there is no ownership check on the
category. -/
def add_note (s : Store) (principal : UserId) (category_name : String)
    (title content : String) (now : Timestamp) :
    Except ApiError (Store × Note) :=
  match Category.getByName s category_name with
  | .error e => .error e
  | .ok category =>
      let note : Note :=
        ⟨freshNoteId s, title, content, principal, category.id, now, now⟩
      .ok ({ s with notes := s.notes ++ [note] }, note)

/-- `get_note` (app/views.py, GET /categories/name/notes/id): fetch by note
id, then reject a foreign author with `AuthorizationError`. The
`category_name` path segment is not consulted. -/
def get_note (s : Store) (principal : UserId) (category_name : String)
    (note_id : NoteId) : Except ApiError Note :=
  match Note.getById s note_id with
  | .error e => .error e
  | .ok note =>
      if note._author ≠ principal then
        .error .AuthorizationError
      else
        .ok note

/-- `edit_note` (app/views.py, PUT /categories/name/notes/id): fetch,
ownership check on the author, resolve the optional new category by name,
then update with `None` values filtered out; `date_modified` is set
unconditionally. -/
def edit_note (s : Store) (principal : UserId) (category_name : String)
    (note_id : NoteId) (title content category : Option String)
    (now : Timestamp) : Except ApiError (Store × Note) :=
  match Note.getById s note_id with
  | .error e => .error e
  | .ok note =>
      if note._author ≠ principal then
        .error .AuthorizationError
      else
        match resolveCategoryArg s category with
        | .error e => .error e
        | .ok newCategory =>
            let updated : Note :=
              { note with
                  title := title.getD note.title,
                  content := content.getD note.content,
                  _category := match newCategory with
                    | some cid => cid
                    | none => note._category,
                  date_modified := now }
            let newNotes := s.notes.map
              (fun n => if n.id = note_id then updated else n)
            .ok ({ s with notes := newNotes }, updated)

/-- `delete_note` (app/views.py, DELETE /categories/name/notes/id): fetch,
ownership check on the author, delete. -/
def delete_note (s : Store) (principal : UserId) (category_name : String)
    (note_id : NoteId) : Except ApiError Store :=
  match Note.getById s note_id with
  | .error e => .error e
  | .ok note =>
      if note._author ≠ principal then
        .error .AuthorizationError
      else
        .ok { s with notes := s.notes.filter (fun n => n.id != note_id) }

/-- Database state visible to the error handlers (app/handlers.py): whether
the transaction of the failed request still holds uncommitted writes.
`db.rollback()` discards them. -/
structure Db where
  dirty : Bool
  deriving Repr, DecidableEq

/-- `db.rollback()`: discard the pending writes. -/
def Db.rollback (db : Db) : Db :=
  { db with dirty := false }

/-- `handle_api_errors` (app/handlers.py): log, `db.rollback()`, then produce
the error response; the result is the database state at response time. -/
def handle_api_errors (db : Db) : Db :=
  db.rollback

/-- `handle_peewee_doesnotexist` (app/handlers.py): log, `db.rollback()`,
respond with `DoesNotExistError`. -/
def handle_peewee_doesnotexist (db : Db) : Db :=
  db.rollback

/-- `handle_404_error` (app/handlers.py): log and respond; there is no
`db.rollback()` call in this handler. -/
def handle_404_error (db : Db) : Db :=
  db

/-- `handle_405_error` (app/handlers.py): log and respond; there is no
`db.rollback()` call in this handler. -/
def handle_405_error (db : Db) : Db :=
  db

/-- `handle_generic_exception` (app/handlers.py): log, `db.rollback()`,
respond with a generic 500-class error. -/
def handle_generic_exception (db : Db) : Db :=
  db.rollback

/-- The database states at response time of every error handler registered in
app/handlers.py, run from the same incoming state. -/
def allErrorHandlerResults (db : Db) : List Db :=
  [handle_api_errors db, handle_peewee_doesnotexist db, handle_404_error db,
   handle_405_error db, handle_generic_exception db]

/-- The store that persists after a request: the handler's store on success,
the original one on error (the error handlers roll the transaction back). -/
def persistedStore {α : Type} (s : Store) (r : Except ApiError (Store × α)) :
    Store :=
  match r with
  | .ok (s2, _) => s2
  | .error _ => s

/-- Sample user for concrete evaluations. -/
def alice : User := ⟨1, "Alice A", "alice@mail.com", make_password_hash "secret"⟩

/-- Second sample user. -/
def bob : User := ⟨2, "Bob B", "bob@mail.com", make_password_hash "hunter2"⟩

/-- Sample category owned by `alice`. -/
def workCat : Category := ⟨1, "work", none, 1⟩

/-- Nested sample category owned by `alice`. -/
def homeCat : Category := ⟨2, "home", some 1, 1⟩

/-- Sample category owned by `bob`. -/
def bobCat : Category := ⟨3, "bobstuff", none, 2⟩

/-- Sample note authored by `alice` in `workCat`. -/
def note1 : Note := ⟨1, "first", "hello", 1, 1, 0, 0⟩

/-- Sample store with two users, three categories and one note. -/
def demoStore : Store := ⟨[alice, bob], [workCat, homeCat, bobCat], [note1]⟩

/-- C1: for each resource-scoped read or mutation on a category or note
(fetch-one, edit, delete), a missing identifier yields `DoesNotExistError`,
while an existing resource with a foreign owner/author yields
`AuthorizationError`; the lookup decides before the ownership check, so the
two failures are never conflated. -/
theorem resource_errors_never_conflated (s : Store) (p : UserId)
    (cn : String) (nid : NoteId) (nm pa t c ca : Option String) (now : Timestamp) :
    (s.categoryByName cn = none →
       get_category s p cn = .error .DoesNotExistError ∧
       edit_category s p cn nm pa = .error .DoesNotExistError ∧
       delete_category s p cn = .error .DoesNotExistError) ∧
    (∀ cat, s.categoryByName cn = some cat → cat.owner ≠ p →
       get_category s p cn = .error .AuthorizationError ∧
       edit_category s p cn nm pa = .error .AuthorizationError ∧
       delete_category s p cn = .error .AuthorizationError) ∧
    (s.noteById nid = none →
       get_note s p cn nid = .error .DoesNotExistError ∧
       edit_note s p cn nid t c ca now = .error .DoesNotExistError ∧
       delete_note s p cn nid = .error .DoesNotExistError) ∧
    (∀ n, s.noteById nid = some n → n._author ≠ p →
       get_note s p cn nid = .error .AuthorizationError ∧
       edit_note s p cn nid t c ca now = .error .AuthorizationError ∧
       delete_note s p cn nid = .error .AuthorizationError) := by
  refine ⟨fun h => ?_, fun cat hc how => ?_, fun h => ?_, fun n hn hna => ?_⟩
  · exact ⟨by simp [get_category, Category.getByName, h],
           by simp [edit_category, Category.getByName, h],
           by simp [delete_category, Category.getByName, h]⟩
  · exact ⟨by simp [get_category, Category.getByName, hc, how],
           by simp [edit_category, Category.getByName, hc, how],
           by simp [delete_category, Category.getByName, hc, how]⟩
  · exact ⟨by simp [get_note, Note.getById, h],
           by simp [edit_note, Note.getById, h],
           by simp [delete_note, Note.getById, h]⟩
  · exact ⟨by simp [get_note, Note.getById, hn, hna],
           by simp [edit_note, Note.getById, hn, hna],
           by simp [delete_note, Note.getById, hn, hna]⟩

/-- Concrete instance of C1 on the sample store: an absent category name is
not found, a foreign-owned category and note are rejected as unauthorized,
and an absent note id is not found. -/
theorem resource_errors_never_conflated_witness :
    get_category demoStore 1 "nope" = .error .DoesNotExistError ∧
    get_category demoStore 1 "bobstuff" = .error .AuthorizationError ∧
    get_note demoStore 2 "work" 1 = .error .AuthorizationError ∧
    delete_note demoStore 1 "work" 99 = .error .DoesNotExistError := by
  have h1 := resource_errors_never_conflated demoStore 1 "nope" 99 none none
    none none none 0
  have h2 := resource_errors_never_conflated demoStore 1 "bobstuff" 99 none none
    none none none 0
  have h3 := resource_errors_never_conflated demoStore 2 "work" 1 none none
    none none none 0
  have h4 := resource_errors_never_conflated demoStore 1 "work" 99 none none
    none none none 0
  exact ⟨(h1.1 (by decide)).1, (h2.2.1 bobCat (by decide) (by decide)).1,
         (h3.2.2.2 note1 (by decide) (by decide)).1,
         (h4.2.2.1 (by decide)).2.2⟩

/-- Counterexample to C2 as stated: creating a note under the category
`bobstuff`, which exists but is owned by `bob` (user 2), with `alice`
(user 1) as principal does not fail with `AuthorizationError` — the request
succeeds and the note is persisted. -/
theorem add_note_cross_owner_cex :
    add_note demoStore 1 "bobstuff" "t" "c" 5 ≠
      Except.error ApiError.AuthorizationError ∧
    (persistedStore demoStore (add_note demoStore 1 "bobstuff" "t" "c" 5)).notes.length =
      demoStore.notes.length + 1 := by
  decide

/-- C2 amended: the fetch-one, edit and delete handlers perform fetch by
identifier, then an ownership check, then the operation, but `add_note`
performs no ownership check after its category fetch: when the named category
exists and is owned by a different user, the note is created anyway, authored
by the principal, in that category. -/
theorem add_note_skips_ownership_check (s : Store) (p : UserId) (cn : String)
    (title content : String) (now : Timestamp) (cat : Category)
    (hc : s.categoryByName cn = some cat) (how : cat.owner ≠ p) :
    ∃ note, add_note s p cn title content now =
        .ok ({ s with notes := s.notes ++ [note] }, note) ∧
      note._author = p ∧ note._category = cat.id := by
  refine ⟨⟨freshNoteId s, title, content, p, cat.id, now, now⟩, ?_, rfl, rfl⟩
  simp [add_note, Category.getByName, hc]

/-- Concrete instance of the amended C2: `alice` creates a note under the
foreign-owned category `bobstuff`. -/
theorem add_note_skips_ownership_check_witness :
    ∃ note, add_note demoStore 1 "bobstuff" "t" "c" 5 =
        .ok ({ demoStore with notes := demoStore.notes ++ [note] }, note) ∧
      note._author = 1 ∧ note._category = bobCat.id :=
  add_note_skips_ownership_check demoStore 1 "bobstuff" "t" "c" 5 bobCat
    (by decide) (by decide)

/-- Counterexample to C3 as stated: `alice` fetches note 1 through the path
of category `home`, and the fetch succeeds even though the note belongs to
category `work`, not to the path category — `get_note` ignores the path
category. -/
theorem get_note_ignores_path_category_cex :
    get_note demoStore 1 "home" 1 = .ok note1 ∧
    demoStore.categoryByName "home" = some homeCat ∧
    note1._category ≠ homeCat.id := by
  decide

/-- C3 amended: a single-note fetch ignores the category named in the path —
its result is identical for any two path categories, and it succeeds exactly
when the note exists and its author is the principal; listing a category's
notes returns exactly the notes whose author is the principal and whose
category is the named one. -/
theorem note_reachability (s : Store) (p : UserId) (cn cn2 : String)
    (nid : NoteId) (start limit : Nat) :
    (get_note s p cn nid = get_note s p cn2 nid) ∧
    (∀ n, s.noteById nid = some n → n._author = p →
       get_note s p cn nid = .ok n) ∧
    (∀ cat, s.categoryByName cn = some cat → cat.owner = p →
       ∃ l, list_category_notes s p cn start limit = .ok l ∧
         ∀ x, x ∈ l ↔ x ∈ s.notes ∧ x._author = p ∧ x._category = cat.id) := by
  refine ⟨rfl, fun n hn ha => ?_, fun cat hc how => ?_⟩
  · simp [get_note, Note.getById, hn, ha]
  · refine ⟨s.notes.filter (fun n => n._author == p && n._category == cat.id),
      ?_, fun x => ?_⟩
    · simp [list_category_notes, Category.getByName, hc, how]
    · simp [List.mem_filter, Bool.and_eq_true, beq_iff_eq, and_assoc]

/-- Concrete instance of the amended C3 on the sample store. -/
theorem note_reachability_witness :
    get_note demoStore 1 "work" 1 = get_note demoStore 1 "home" 1 ∧
    get_note demoStore 1 "work" 1 = .ok note1 ∧
    ∃ l, list_category_notes demoStore 1 "work" 0 20 = .ok l ∧
      ∀ x, x ∈ l ↔ x ∈ demoStore.notes ∧ x._author = 1 ∧
        x._category = workCat.id := by
  have h := note_reachability demoStore 1 "work" "home" 1 0 20
  exact ⟨h.1, h.2.1 note1 (by decide) (by decide),
         h.2.2 workCat (by decide) (by decide)⟩

/-- The modelled password hash is injective: equal hashes come from equal
passwords. -/
theorem make_password_hash_inj {a b : String}
    (h : make_password_hash a = make_password_hash b) : a = b := by
  simp only [make_password_hash] at h
  have h2 : ("pbkdf2$" ++ a).data = ("pbkdf2$" ++ b).data := congrArg String.data h
  simp only [String.data_append] at h2
  exact String.ext (List.append_cancel_left h2)

/-- C4: authenticating a stored user with a wrong password fails with
`AuthenticationError`; authenticating with an email matching no user fails
with `DoesNotExistError`; correct credentials return a token whose subject
claim resolves back to the same user. -/
theorem authentication_cases (s : Store) (u : User) (pw p e : String)
    (hu : s.userByEmail u.email = some u)
    (hh : u.password_hash = make_password_hash pw) :
    (p ≠ pw → User.authenticate s u.email p = .error .AuthenticationError) ∧
    (s.userByEmail e = none →
       User.authenticate s e p = .error .DoesNotExistError) ∧
    (User.authenticate s u.email pw = .ok u) ∧
    (obtain_access_token s u.email pw = .ok (generate_access_token u.id)) ∧
    (s.userById u.id = some u →
       jwt_resolve s (generate_access_token u.id) = .ok u) := by
  have hok : User.authenticate s u.email pw = .ok u := by
    have hcpw : check_password_hash u.password_hash pw = true := by
      simp [check_password_hash, hh]
    simp [User.authenticate, hu, hcpw]
  refine ⟨fun hne => ?_, fun hmiss => ?_, hok, ?_, fun hid => ?_⟩
  · have hcpw : check_password_hash u.password_hash p = false := by
      simp only [check_password_hash, hh, beq_eq_false_iff_ne, ne_eq]
      exact fun heq => hne (make_password_hash_inj heq).symm
    simp [User.authenticate, hu, hcpw]
  · simp [User.authenticate, hmiss]
  · simp [obtain_access_token, hok, Except.map]
  · simp [jwt_resolve, generate_access_token, hid]

/-- Concrete instance of C4 on the sample store. -/
theorem authentication_cases_witness :
    User.authenticate demoStore "alice@mail.com" "wrong" =
      .error .AuthenticationError ∧
    User.authenticate demoStore "ghost@mail.com" "x" =
      .error .DoesNotExistError ∧
    obtain_access_token demoStore "alice@mail.com" "secret" = .ok ⟨1⟩ ∧
    jwt_resolve demoStore ⟨1⟩ = .ok alice := by
  have h := authentication_cases demoStore alice "secret" "wrong"
    "ghost@mail.com" (by decide) rfl
  exact ⟨h.1 (by decide), h.2.1 (by decide), h.2.2.2.1, h.2.2.2.2 (by decide)⟩

/-- C5: editing an owned note sets `date_modified` to the edit time — which
is strictly after `date_created` whenever the edit happens after creation —
regardless of which of title/content/category are supplied, and every
unsupplied field keeps its previous value. -/
theorem edit_note_touches_date_modified (s : Store) (p : UserId)
    (cn : String) (nid : NoteId) (t c ca : Option String) (now : Timestamp)
    (n : Note) (hn : s.noteById nid = some n) (ha : n._author = p)
    (hcr : n.date_created < now)
    (hca : ∀ x, ca = some x → (s.categoryByName x).isSome = true) :
    ∃ st n2, edit_note s p cn nid t c ca now = .ok (st, n2) ∧
      n2.date_modified = now ∧
      n2.date_created = n.date_created ∧
      n2.date_created < n2.date_modified ∧
      (t = none → n2.title = n.title) ∧
      (c = none → n2.content = n.content) ∧
      (ca = none → n2._category = n._category) := by
  have hres : ∃ oc, resolveCategoryArg s ca = .ok oc := by
    cases ca with
    | none => exact ⟨none, rfl⟩
    | some x =>
        have hx := hca x rfl
        cases hfind : s.categoryByName x with
        | none => simp [hfind] at hx
        | some cc =>
            exact ⟨some cc.id,
              by simp [resolveCategoryArg, Category.getByName, hfind]⟩
  obtain ⟨oc, hoc⟩ := hres
  refine ⟨{ s with notes := s.notes.map (fun m => if m.id = nid then
      ⟨n.id, t.getD n.title, c.getD n.content, n._author,
        (match oc with | some cid => cid | none => n._category),
        n.date_created, now⟩ else m) },
    ⟨n.id, t.getD n.title, c.getD n.content, n._author,
      (match oc with | some cid => cid | none => n._category),
      n.date_created, now⟩, ?_, rfl, rfl, hcr, ?_, ?_, ?_⟩
  · simp [edit_note, Note.getById, hn, ha, hoc]
    cases oc <;> rfl
  · intro ht
    simp [ht]
  · intro hc2
    simp [hc2]
  · intro hca2
    subst hca2
    have hoc2 : none = oc := by
      simpa [resolveCategoryArg] using hoc
    subst hoc2
    rfl

/-- Concrete instance of C5 on the sample store: `alice` edits only the
content of note 1 at time 7. -/
theorem edit_note_touches_date_modified_witness :
    ∃ st n2, edit_note demoStore 1 "work" 1 none (some "body2") none 7 =
        .ok (st, n2) ∧
      n2.date_modified = 7 ∧
      n2.date_created = note1.date_created ∧
      n2.date_created < n2.date_modified ∧
      ((none : Option String) = none → n2.title = note1.title) ∧
      ((some "body2" : Option String) = none → n2.content = note1.content) ∧
      ((none : Option String) = none → n2._category = note1._category) :=
  edit_note_touches_date_modified demoStore 1 "work" 1 none (some "body2")
    none 7 note1 (by decide) (by decide) (by decide) (fun x h => nomatch h)

/-- Ten sample notes authored by `alice` in `workCat`, created at increasing
times. -/
def tenNotes : List Note :=
  (List.range 10).map (fun i => ⟨i + 1, "note", "body", 1, 1, i, i⟩)

/-- Sample store holding the ten notes. -/
def pageStore : Store := ⟨[alice], [workCat], tenNotes⟩

/-- C6: listing the principal's notes pages over their notes with offset
`start` and page size `limit` (defaults 0 and 20); with 10 notes,
`start=3, limit=5` returns exactly 5 notes, the earliest-created of which —
when creation times increase along the store — is the 4th created note
(0-indexed offset 3); no upper bound is enforced on `limit`: any `limit`
covering all notes returns them all. -/
theorem list_all_notes_pagination (s : Store) (p : UserId)
    (h10 : (s.notes.filter (fun n => n._author == p)).length = 10)
    (hord : (s.notes.filter (fun n => n._author == p)).Pairwise
      (fun a b => a.date_created < b.date_created)) :
    (list_all_notes s p 3 5).length = 5 ∧
    (list_all_notes s p 3 5).head? =
      (s.notes.filter (fun n => n._author == p))[3]? ∧
    (∀ m3, (s.notes.filter (fun n => n._author == p))[3]? = some m3 →
       ∀ m ∈ list_all_notes s p 3 5, m3.date_created ≤ m.date_created) ∧
    (∀ limit, 10 ≤ limit →
       list_all_notes s p 0 limit = s.notes.filter (fun n => n._author == p)) ∧
    START_DEFAULT = 0 ∧ LIMIT_DEFAULT = 20 := by
  refine ⟨?_, ?_, ?_, ?_, rfl, rfl⟩
  · simp [list_all_notes, h10]
  · rw [list_all_notes, List.head?_take, if_neg (by decide),
      List.head?_eq_getElem?, List.getElem?_drop]
  · intro m3 hm3 m hm
    have hd : ((s.notes.filter (fun n => n._author == p)).drop 3).head? =
        some m3 := by
      rw [List.head?_eq_getElem?, List.getElem?_drop]
      simpa using hm3
    have hmem : m ∈ (s.notes.filter (fun n => n._author == p)).drop 3 :=
      List.take_subset _ _ hm
    have hpw : ((s.notes.filter (fun n => n._author == p)).drop 3).Pairwise
        (fun a b => a.date_created < b.date_created) :=
      List.Pairwise.sublist (List.drop_sublist 3 _) hord
    cases hdrop : (s.notes.filter (fun n => n._author == p)).drop 3 with
    | nil =>
        rw [hdrop] at hd
        simp at hd
    | cons a tail =>
        rw [hdrop] at hd hmem hpw
        have ha : a = m3 := by simpa using hd
        subst ha
        rcases List.mem_cons.mp hmem with h1 | h1
        · exact le_of_eq (by rw [h1])
        · exact le_of_lt ((List.pairwise_cons.mp hpw).1 m h1)
  · intro limit hlim
    rw [list_all_notes, List.drop_zero, List.take_of_length_le (by omega)]

/-- Concrete instance of C6: ten notes by `alice`, page `start=3, limit=5`. -/
theorem list_all_notes_pagination_witness :
    (list_all_notes pageStore 1 3 5).length = 5 ∧
    (list_all_notes pageStore 1 3 5).head? =
      (pageStore.notes.filter (fun n => n._author == 1))[3]? ∧
    (∀ m3, (pageStore.notes.filter (fun n => n._author == 1))[3]? = some m3 →
       ∀ m ∈ list_all_notes pageStore 1 3 5, m3.date_created ≤ m.date_created) ∧
    (∀ limit, 10 ≤ limit →
       list_all_notes pageStore 1 0 limit =
         pageStore.notes.filter (fun n => n._author == 1)) ∧
    START_DEFAULT = 0 ∧ LIMIT_DEFAULT = 20 :=
  list_all_notes_pagination pageStore 1 (by decide) (by decide)

/-- Resolution of the optional category-name argument succeeds whenever the
argument is absent or names an existing category. -/
theorem resolveCategoryArg_ok (s : Store) (arg : Option String)
    (h : ∀ x, arg = some x → (s.categoryByName x).isSome = true) :
    ∃ oc, resolveCategoryArg s arg = .ok oc := by
  cases arg with
  | none => exact ⟨none, rfl⟩
  | some x =>
      have hx := h x rfl
      cases hfind : s.categoryByName x with
      | none => simp [hfind] at hx
      | some cc =>
          exact ⟨some cc.id,
            by simp [resolveCategoryArg, Category.getByName, hfind]⟩

/-- C7: creating a category whose name collides with any existing category,
regardless of that category's owner, fails with `IntegrityViolationError`,
and no new category persists — name uniqueness is global, not per-owner. -/
theorem add_category_duplicate_name (s : Store) (p : UserId) (nm : String)
    (parent : Option String) (c : Category) (hc : c ∈ s.categories)
    (hname : c.name = nm)
    (hpar : ∀ pn, parent = some pn → (s.categoryByName pn).isSome = true) :
    add_category s p nm parent = .error .IntegrityViolationError ∧
    persistedStore s (add_category s p nm parent) = s := by
  obtain ⟨oc, hoc⟩ := resolveCategoryArg_ok s parent hpar
  have hany : s.categories.any (fun d => d.name == nm) = true :=
    List.any_eq_true.mpr ⟨c, hc, by simp [hname]⟩
  have h1 : add_category s p nm parent = .error .IntegrityViolationError := by
    simp [add_category, hoc, hany]
  refine ⟨h1, ?_⟩
  rw [h1]
  rfl

/-- Concrete instance of C7: `bob` (user 2) tries to create a category named
`work`, which already exists under `alice` (user 1). -/
theorem add_category_duplicate_name_witness :
    add_category demoStore 2 "work" none = .error .IntegrityViolationError ∧
    persistedStore demoStore (add_category demoStore 2 "work" none) =
      demoStore :=
  add_category_duplicate_name demoStore 2 "work" none workCat (by decide) rfl
    (fun pn h => nomatch h)

/-- Counterexample to C8 as stated: the route-not-found handler produces its
response without rolling back, so a transaction that was dirty going in is
still dirty when the response is produced; not every registered error
handler leaves the store free of partial writes. -/
theorem handle_404_no_rollback_cex :
    handle_404_error ⟨true⟩ = ⟨true⟩ ∧
    (allErrorHandlerResults ⟨true⟩).all (fun db => !db.dirty) = false := by
  decide

/-- C8 amended: the domain-error, database-miss and generic-exception
handlers roll the transaction back before producing their response, so no
partial writes persist through them; the route-not-found and
method-not-allowed handlers produce their response with the database state
untouched (no rollback call). -/
theorem error_handlers_rollback (db : Db) :
    (handle_api_errors db).dirty = false ∧
    (handle_peewee_doesnotexist db).dirty = false ∧
    (handle_generic_exception db).dirty = false ∧
    handle_404_error db = db ∧
    handle_405_error db = db :=
  ⟨rfl, rfl, rfl, rfl, rfl⟩

/-- C9: listing a category's notes accepts `start` and `limit` but its
result does not depend on them — any two parameter pairs give the identical
result — and for an owned category the full list of the principal's notes in
that category is always returned, unpaginated. -/
theorem list_category_notes_unpaginated (s : Store) (p : UserId)
    (cn : String) :
    (∀ start1 limit1 start2 limit2,
       list_category_notes s p cn start1 limit1 =
         list_category_notes s p cn start2 limit2) ∧
    (∀ cat, s.categoryByName cn = some cat → cat.owner = p →
       ∀ start limit, list_category_notes s p cn start limit =
         .ok (s.notes.filter
           (fun n => n._author == p && n._category == cat.id))) := by
  refine ⟨fun _ _ _ _ => rfl, fun cat hc how start limit => ?_⟩
  simp [list_category_notes, Category.getByName, hc, how]

/-- Concrete instance of C9 on the sample store. -/
theorem list_category_notes_unpaginated_witness :
    list_category_notes demoStore 1 "work" 0 20 =
      list_category_notes demoStore 1 "work" 3 5 ∧
    list_category_notes demoStore 1 "work" 0 20 =
      .ok (demoStore.notes.filter
        (fun n => n._author == 1 && n._category == workCat.id)) := by
  have h := list_category_notes_unpaginated demoStore 1 "work"
  exact ⟨h.1 0 20 3 5, h.2 workCat (by decide) (by decide) 0 20⟩

/-- C10: the three partial-update endpoints filter out absent (null) inputs
before updating, so every updatable field either receives the supplied value
(the password re-hashed, the category resolved by name) or keeps its
previous value — in particular a category's parent reference, once set, can
never be reset to null through the edit endpoint. -/
theorem partial_updates_never_clear (s : Store) (p : UserId)
    (cn : String) (nid : NoteId)
    (fullname email password nm pa t c ca : Option String) (now : Timestamp) :
    (∀ u, s.userById p = some u →
       (∀ v, email = some v → v ≠ u.email →
          s.users.any (fun w => w.email == v) = false) →
       ∃ st u2, edit_profile s p fullname email password = .ok (st, u2) ∧
         (fullname = none → u2.fullname = u.fullname) ∧
         (email = none → u2.email = u.email) ∧
         (password = none → u2.password_hash = u.password_hash) ∧
         (∀ v, fullname = some v → u2.fullname = v) ∧
         (∀ v, email = some v → u2.email = v) ∧
         (∀ v, password = some v → u2.password_hash = make_password_hash v)) ∧
    (∀ cat, s.categoryByName cn = some cat → cat.owner = p →
       (∀ x, pa = some x → (s.categoryByName x).isSome = true) →
       (∀ v, nm = some v → v ≠ cat.name →
          s.categories.any (fun d => d.name == v) = false) →
       ∃ st c2, edit_category s p cn nm pa = .ok (st, c2) ∧
         (nm = none → c2.name = cat.name) ∧
         (∀ v, nm = some v → c2.name = v) ∧
         (pa = none → c2._parent = cat._parent) ∧
         (cat._parent.isSome = true → c2._parent.isSome = true)) ∧
    (∀ n, s.noteById nid = some n → n._author = p →
       (∀ x, ca = some x → (s.categoryByName x).isSome = true) →
       ∃ st n2, edit_note s p cn nid t c ca now = .ok (st, n2) ∧
         (t = none → n2.title = n.title) ∧
         (c = none → n2.content = n.content) ∧
         (ca = none → n2._category = n._category) ∧
         (∀ v, t = some v → n2.title = v) ∧
         (∀ v, c = some v → n2.content = v)) := by
  refine ⟨?_, ?_, ?_⟩
  · intro u hu hem
    have hcond : ((email.getD u.email != u.email) &&
        s.users.any (fun w => w.email == email.getD u.email)) = false := by
      cases email with
      | none => simp
      | some v =>
          by_cases hv : v = u.email
          · simp [hv]
          · simp [hem v rfl hv]
    refine ⟨{ s with users := s.users.map (fun w => if w.id = p then
        ⟨u.id, fullname.getD u.fullname, email.getD u.email,
          (match password with
            | some q => make_password_hash q
            | none => u.password_hash)⟩ else w) },
      ⟨u.id, fullname.getD u.fullname, email.getD u.email,
        (match password with
          | some q => make_password_hash q
          | none => u.password_hash)⟩,
      ?_, ?_, ?_, ?_, ?_, ?_, ?_⟩
    · simp [edit_profile, hu, hcond]
    · intro h2
      simp [h2]
    · intro h2
      simp [h2]
    · intro h2
      simp [h2]
    · intro v h2
      simp [h2]
    · intro v h2
      simp [h2]
    · intro v h2
      simp [h2]
  · intro cat hcat how hpa hnm
    obtain ⟨oc, hoc⟩ := resolveCategoryArg_ok s pa hpa
    have hcond : ((nm.getD cat.name != cat.name) &&
        s.categories.any (fun d => d.name == nm.getD cat.name)) = false := by
      cases nm with
      | none => simp
      | some v =>
          by_cases hv : v = cat.name
          · simp [hv]
          · simp [hnm v rfl hv]
    refine ⟨{ s with categories := s.categories.map (fun d => if d.id = cat.id then
        ⟨cat.id, nm.getD cat.name,
          (match oc with
            | some pid => some pid
            | none => cat._parent), cat.owner⟩ else d) },
      ⟨cat.id, nm.getD cat.name,
        (match oc with
          | some pid => some pid
          | none => cat._parent), cat.owner⟩,
      ?_, ?_, ?_, ?_, ?_⟩
    · simp [edit_category, Category.getByName, hcat, how, hoc, hcond]
      cases oc <;> rfl
    · intro h2
      simp [h2]
    · intro v h2
      simp [h2]
    · intro h2
      subst h2
      have hoc2 : none = oc := by
        simpa [resolveCategoryArg] using hoc
      subst hoc2
      rfl
    · intro h2
      cases oc with
      | none => exact h2
      | some pid => rfl
  · intro n hn ha hca
    obtain ⟨oc, hoc⟩ := resolveCategoryArg_ok s ca hca
    refine ⟨{ s with notes := s.notes.map (fun m => if m.id = nid then
        ⟨n.id, t.getD n.title, c.getD n.content, n._author,
          (match oc with
            | some cid => cid
            | none => n._category), n.date_created, now⟩ else m) },
      ⟨n.id, t.getD n.title, c.getD n.content, n._author,
        (match oc with
          | some cid => cid
          | none => n._category), n.date_created, now⟩,
      ?_, ?_, ?_, ?_, ?_, ?_⟩
    · simp [edit_note, Note.getById, hn, ha, hoc]
      cases oc <;> rfl
    · intro h2
      simp [h2]
    · intro h2
      simp [h2]
    · intro h2
      subst h2
      have hoc2 : none = oc := by
        simpa [resolveCategoryArg] using hoc
      subst hoc2
      rfl
    · intro v h2
      simp [h2]
    · intro v h2
      simp [h2]

/-- Concrete instance of C10: a password-only profile edit keeps the name and
email; a no-input category edit keeps the parent set; a title-only note edit
keeps content and category. -/
theorem partial_updates_never_clear_witness :
    (∃ st u2, edit_profile demoStore 1 none none (some "newpw") =
        .ok (st, u2) ∧
      u2.fullname = alice.fullname ∧ u2.email = alice.email ∧
      u2.password_hash = make_password_hash "newpw") ∧
    (∃ st c2, edit_category demoStore 1 "home" none none = .ok (st, c2) ∧
      c2._parent = homeCat._parent ∧ c2._parent.isSome = true) ∧
    (∃ st n2, edit_note demoStore 1 "work" 1 (some "t2") none none 9 =
        .ok (st, n2) ∧
      n2.content = note1.content ∧ n2._category = note1._category ∧
      n2.title = "t2") := by
  have h := partial_updates_never_clear demoStore 1 "home" 1 none none
    (some "newpw") none none (some "t2") none none 9
  obtain ⟨st1, u2, he1, hf, hem, _, _, _, hpw⟩ :=
    h.1 alice (by decide) (fun v hv => nomatch hv)
  obtain ⟨st2, c2, he2, _, _, hpa, hps⟩ :=
    h.2.1 homeCat (by decide) (by decide) (fun x hx => nomatch hx)
      (fun v hv => nomatch hv)
  obtain ⟨st3, n2, he3, _, hc2, hca2, ht2, _⟩ :=
    h.2.2 note1 (by decide) (by decide) (fun x hx => nomatch hx)
  exact ⟨⟨st1, u2, he1, hf rfl, hem rfl, hpw "newpw" rfl⟩,
         ⟨st2, c2, he2, hpa rfl, hps (by decide)⟩,
         ⟨st3, n2, he3, hc2 rfl, hca2 rfl, ht2 "t2" rfl⟩⟩

end Bitboard
